import Mathlib

/-!
Verification of the fish-nerf repository's ray-sampling and volumetric-compositing
pipeline against its specification.  The shallow embedding below translates the
code of `src/run.py` and `src/utils/render.py`; components of the repository that
live outside `src/` (the `fish_nerf` package: renderer, sampler, implicit volume,
ray helpers) are modelled from the specification, as marked in their doc comments.
-/

open Filter

/-! ## Volumetric compositing (Renderer, spec §4.4) -/

/-- Modelled from the spec: the Renderer's per-sample local opacity
`α = 1 - exp (-(σ·δ))` (spec §4.4 step 2).  The Renderer lives in
`fish_nerf.renderer`, which is not under `src/`. -/
noncomputable def localAlpha (sigma delta : ℝ) : ℝ :=
  1 - Real.exp (-(sigma * delta))

/-- Modelled from the spec: the transmittance recursion of §4.4 steps 3-4.
Given the list of local opacities and the transmittance accumulated so far,
produce the per-sample weights `w_i = T_i * α_i` with `T_{i+1} = T_i * (1 - α_i)`. -/
noncomputable def weightsAux : List ℝ → ℝ → List ℝ
  | [], _ => []
  | a :: rest, T => T * a :: weightsAux rest (T * (1 - a))

/-- Modelled from the spec: per-sample weights of one ray, §4.4 steps 2-4,
starting from `T_1 = 1`. -/
noncomputable def rayWeights (sigmas deltas : List ℝ) : List ℝ :=
  weightsAux (List.zipWith localAlpha sigmas deltas) 1

/-- Modelled from the spec: the accumulated opacity `Σ_i w_i` of §4.4 step 6. -/
noncomputable def accumulatedOpacity (sigmas deltas : List ℝ) : ℝ :=
  (rayWeights sigmas deltas).sum

lemma weightsAux_sum (as : List ℝ) :
    ∀ T : ℝ, (weightsAux as T).sum = T * (1 - (as.map (fun a => 1 - a)).prod) := by
  induction as with
  | nil => intro T; simp [weightsAux]
  | cons a rest ih =>
      intro T
      simp only [weightsAux, List.sum_cons, ih, List.map_cons, List.prod_cons]
      ring

lemma map_one_sub_alphas (sigmas deltas : List ℝ) :
    (List.zipWith localAlpha sigmas deltas).map (fun a => 1 - a) =
      List.zipWith (fun s d => Real.exp (-(s * d))) sigmas deltas := by
  induction sigmas generalizing deltas with
  | nil => simp
  | cons s rest ih =>
      cases deltas with
      | nil => simp
      | cons d ds => simp [localAlpha, ih]

lemma prod_exp_zip (sigmas deltas : List ℝ) :
    (List.zipWith (fun s d => Real.exp (-(s * d))) sigmas deltas).prod =
      Real.exp (-((List.zipWith (· * ·) sigmas deltas).sum)) := by
  induction sigmas generalizing deltas with
  | nil => simp
  | cons s rest ih =>
      cases deltas with
      | nil => simp
      | cons d ds =>
          simp only [List.zipWith_cons_cons, List.prod_cons, List.sum_cons, ih,
            ← Real.exp_add]
          rw [neg_add]

lemma accumulatedOpacity_eq (sigmas deltas : List ℝ) :
    accumulatedOpacity sigmas deltas =
      1 - Real.exp (-((List.zipWith (· * ·) sigmas deltas).sum)) := by
  unfold accumulatedOpacity rayWeights
  rw [weightsAux_sum, map_one_sub_alphas, prod_exp_zip]
  ring

lemma zip_sum_tendsto_atTop :
    ∀ (fs : List (ℝ → ℝ)) (ds : List ℝ), fs ≠ [] → fs.length = ds.length →
      (∀ f ∈ fs, Tendsto f atTop atTop) → (∀ d ∈ ds, 0 < d) →
      Tendsto (fun t => (List.zipWith (· * ·) (fs.map (fun f => f t)) ds).sum)
        atTop atTop := by
  intro fs
  induction fs with
  | nil => intro ds h; exact absurd rfl h
  | cons f rest ih =>
      intro ds _ hlen hf hd
      cases ds with
      | nil => exact absurd hlen (by simp)
      | cons d ds =>
          have hfd : Tendsto (fun t => f t * d) atTop atTop :=
            Filter.Tendsto.atTop_mul_const (hd d (by simp)) (hf f (by simp))
          by_cases h0 : rest = []
          · subst h0
            have hds : ds = [] := by simpa using hlen.symm
            subst hds
            simpa using hfd
          · have hrest := ih ds h0 (by simpa using hlen)
              (fun g hg => hf g (by simp [hg])) (fun e he => hd e (by simp [he]))
            have := Filter.tendsto_atTop_add hfd hrest
            simpa using this

/-- C1: for every ray and every sequence of non-negative per-sample densities,
the weights `w_i = T_i * α_i` produced by the Renderer's compositing rule sum to
at most 1, and the accumulated opacity tends to 1 when every density tends to
infinity (positive spacings, at least one sample). -/
theorem opacity_conservation (sigmas deltas : List ℝ) (sfuns : List (ℝ → ℝ))
    (spacings : List ℝ)
    (hs : ∀ s ∈ sigmas, 0 ≤ s)
    (hne : sfuns ≠ []) (hlen : sfuns.length = spacings.length)
    (hf : ∀ f ∈ sfuns, Tendsto f atTop atTop)
    (hd : ∀ d ∈ spacings, 0 < d) :
    accumulatedOpacity sigmas deltas ≤ 1 ∧
    Tendsto (fun t => accumulatedOpacity (sfuns.map (fun f => f t)) spacings)
      atTop (nhds 1) := by
  constructor
  · rw [accumulatedOpacity_eq]
    have := Real.exp_pos (-((List.zipWith (· * ·) sigmas deltas).sum))
    linarith
  · have hsum := zip_sum_tendsto_atTop sfuns spacings hne hlen hf hd
    have hexp : Tendsto
        (fun t => Real.exp (-((List.zipWith (· * ·)
          (sfuns.map (fun f => f t)) spacings).sum))) atTop (nhds 0) :=
      Real.tendsto_exp_atBot.comp (tendsto_neg_atTop_atBot.comp hsum)
    have hfinal := Filter.Tendsto.const_sub (1 : ℝ) hexp
    simp only [sub_zero] at hfinal
    have heq : (fun t => accumulatedOpacity (sfuns.map (fun f => f t)) spacings) =
        (fun t => 1 - Real.exp (-((List.zipWith (· * ·)
          (sfuns.map (fun f => f t)) spacings).sum))) := by
      funext t
      exact accumulatedOpacity_eq _ _
    rw [heq]
    exact hfinal

/-- C1 witness: the conservation theorem at a concrete ray with one sample of
density 1 and spacing 1, and the density function `id` tending to infinity. -/
theorem opacity_conservation_witness :
    accumulatedOpacity [1] [1] ≤ 1 ∧
    Tendsto (fun t => accumulatedOpacity ([(fun x : ℝ => x)].map (fun f => f t)) [1])
      atTop (nhds 1) :=
  opacity_conservation [1] [1] [(fun x : ℝ => x)] [1]
    (by intro s hs; simp at hs; simp [hs])
    (by simp) (by simp) (by intro f hf; simp at hf; subst hf; exact tendsto_id)
    (by intro d hd; simp at hd; simp [hd])

/-! ## Configuration, camera model, and model construction (`src/run.py`) -/

/-- From `image_resampling.mvs_utils.shape_struct` (external dependency): the
sensor shape, constructed in `Model.__init__` as `ShapeStruct(256, 256)`. -/
structure ShapeStruct where
  W : ℕ
  H : ℕ
deriving DecidableEq

/-- From `image_resampling.mvs_utils.camera_models` (external dependency): the
`LinearSphere` fisheye camera model, keeping only the configuration fields the
claims depend on (field of view and sensor shape). -/
structure LinearSphere where
  fov_degree : ℚ
  ss : ShapeStruct
deriving DecidableEq

/-- Modelled from the spec: the camera's cached per-pixel validity mask, true
exactly for pixels inside the lens's circular field of view (spec §3
CameraModel); the computation itself lives in the external `image_resampling`
package.  The grid is flattened row-major into a list of `H * W` booleans. -/
@[irreducible] def get_valid_mask (cm : LinearSphere) : List Bool :=
  (List.range (cm.ss.H * cm.ss.W)).map (fun i =>
    let y : ℕ := i / cm.ss.W
    let x : ℕ := i % cm.ss.W
    decide (((x : ℚ) - ((cm.ss.W : ℚ) - 1) / 2) ^ 2 +
        ((y : ℚ) - ((cm.ss.H : ℚ) - 1) / 2) ^ 2 ≤
      ((min cm.ss.W cm.ss.H : ℚ) / 2 * (cm.fov_degree / 180)) ^ 2))

/-- From `src/run.py`: one typed sub-configuration block (`cfg.implicit_function`,
`cfg.sampler`, `cfg.renderer`), holding the variant selector `type` and the
remaining hyperparameters (collapsed to one rational field). -/
structure TypedCfg where
  type : String
  param : ℚ
deriving DecidableEq

/-- From `src/run.py`: the part of `cfg.data` that `Model.__init__` reads. -/
structure DataCfg where
  fov_degree : ℚ
deriving DecidableEq

/-- From `src/run.py`: the configuration consumed by `Model.__init__`. -/
structure Config where
  data : DataCfg
  implicit_function : TypedCfg
  sampler : TypedCfg
  renderer : TypedCfg
deriving DecidableEq

/-- Modelled from the spec: an instantiated ImplicitVolume variant, recording
which registered constructor built it and the sub-configuration it was given
(the concrete variants live in `fish_nerf.models`, not under `src/`). -/
structure ImplicitVolume where
  kind : String
  cfg : TypedCfg
deriving DecidableEq

/-- Modelled from the spec: an instantiated Sampler variant
(`fish_nerf.sampler`, not under `src/`). -/
structure Sampler where
  kind : String
  cfg : TypedCfg
deriving DecidableEq

/-- Modelled from the spec: an instantiated Renderer variant
(`fish_nerf.renderer`, not under `src/`). -/
structure Renderer where
  kind : String
  cfg : TypedCfg
deriving DecidableEq

/-- Modelled from the spec: the name-keyed registry of ImplicitVolume
constructors (`volume_dict` in `fish_nerf.models`); representative entries. -/
def volume_dict : List (String × (TypedCfg → ImplicitVolume)) :=
  [("grid", fun c => { kind := "grid", cfg := c }),
   ("nerf", fun c => { kind := "nerf", cfg := c })]

/-- Modelled from the spec: the name-keyed registry of Sampler constructors
(`sampler_dict` in `fish_nerf.sampler`); representative entries. -/
def sampler_dict : List (String × (TypedCfg → Sampler)) :=
  [("stratified", fun c => { kind := "stratified", cfg := c }),
   ("uniform", fun c => { kind := "uniform", cfg := c })]

/-- Modelled from the spec: the name-keyed registry of Renderer constructors
(`renderer_dict` in `fish_nerf.renderer`); representative entries. -/
def renderer_dict : List (String × (TypedCfg → Renderer)) :=
  [("volume", fun c => { kind := "volume", cfg := c })]

/-- From `src/run.py` `Model.__init__` lines 39-44: the camera model is built
from the configuration's field of view and the fixed 256×256 sensor shape. -/
def camera_of (cfg : Config) : LinearSphere :=
  { fov_degree := cfg.data.fov_degree, ss := { W := 256, H := 256 } }

/-- From `src/run.py`: the `Model` instance — camera model, the cached validity
mask, and the three registry-selected components. -/
structure Model where
  camera_model : LinearSphere
  valid_mask : List Bool
  implicit_fn : ImplicitVolume
  sampler : Sampler
  renderer : Renderer

/-- A value together with the number of `get_valid_mask` evaluations performed
while producing it, used to state that the mask is computed exactly once. -/
structure Counted (α : Type) where
  val : α
  maskCalls : ℕ

/-- From `src/run.py` `Model.__init__` lines 35-63: build the camera model,
compute the validity mask (the single `get_valid_mask` call, line 45), and
instantiate the three components by name-keyed registry lookup on the
configuration's type selectors (lines 54-63).  A missing registry key is the
Python `KeyError`, embedded as `none`. -/
def mkModel (cfg : Config) : Option (Counted Model) :=
  (List.lookup cfg.implicit_function.type volume_dict).bind fun vctor =>
  (List.lookup cfg.sampler.type sampler_dict).bind fun sctor =>
  (List.lookup cfg.renderer.type renderer_dict).map fun rctor =>
    { val := { camera_model := camera_of cfg
             , valid_mask := get_valid_mask (camera_of cfg)
             , implicit_fn := vctor cfg.implicit_function
             , sampler := sctor cfg.sampler
             , renderer := rctor cfg.renderer }
    , maskCalls := 1 }

/-! ## Pixel helpers and image assembly (`fish_nerf.ray`, `src/utils/render.py`) -/

/-- Modelled from the spec: `all_valid_pixels()` — enumerate every flattened
pixel index whose mask entry is true (`get_pixels_from_image` with
`filter_valid=True` in `fish_nerf.ray`, not under `src/`). -/
def get_pixels_from_image (mask : List Bool) : List ℕ :=
  (List.range mask.length).filter (fun i => mask.getD i false)

/-- Modelled from the spec: `sample_random_valid_pixels(k)` — draw `k` pixel
coordinates from the valid region (`get_random_pixels_from_image` in
`fish_nerf.ray`, not under `src/`); the random generator is embedded as a
deterministic function of an explicit seed. -/
def get_random_pixels_from_image (k seed : ℕ) (mask : List Bool) : List ℕ :=
  let valid := get_pixels_from_image mask
  (List.range k).map (fun j => valid.getD ((seed + j) % max valid.length 1) 0)

/-- An RGB color value (one rendered "feature" per ray). -/
def Color3 : Type := ℝ × ℝ × ℝ

/-- Modelled from the spec: the ImplicitVolume query's color at one pixel's ray
under one pose — a representative pure stand-in for the network evaluation
(`fish_nerf.models`, not under `src/`). -/
noncomputable def color_at (v : ImplicitVolume) (pose : List ℝ) (p : ℕ) : Color3 :=
  ((p : ℝ) + (v.cfg.param : ℝ), pose.headD 0, (v.kind.length : ℝ))

/-- Modelled from the spec: the model's forward pass — one color ("feature")
per input pixel's ray (spec §4.4: `render` returns color per ray). -/
noncomputable def model_forward (m : Model) (pose : List ℝ) (pixels : List ℕ) :
    List Color3 :=
  pixels.map (fun p => color_at m.implicit_fn pose p)

/-- From `src/utils/render.py` lines 83-85: scatter the per-ray colors into the
full flattened grid — positions where the mask is true receive the next color,
positions where it is false keep the background value `bg`; a length mismatch
(a NumPy shape error) is `none`. -/
def scatterValid {α : Type} (bg : α) : List Bool → List α → Option (List α)
  | [], [] => some []
  | [], _ :: _ => none
  | false :: ms, cs => (scatterValid bg ms cs).map (fun r => bg :: r)
  | true :: _, [] => none
  | true :: ms, c :: cs => (scatterValid bg ms cs).map (fun r => c :: r)

/-- From `src/utils/render.py`: the per-iteration conversion from degrees to
radians performed inside `Rotation.from_euler(..., degrees=True)` (scipy,
external dependency). -/
noncomputable def deg_to_rad (x : ℝ) : ℝ := x * Real.pi / 180

/-- From scipy (external dependency): the `xyzw` quaternion returned by
`Rotation.from_euler('z', theta, degrees=True).as_quat()` — a rotation about
the z axis whose angle is `theta` interpreted in degrees. -/
noncomputable def quat_z_degrees (theta : ℝ) : List ℝ :=
  [0, 0, Real.sin (deg_to_rad theta / 2), Real.cos (deg_to_rad theta / 2)]

/-- From `src/utils/render.py` line 67: `pose = np.array([*translation, *quat])`. -/
noncomputable def render_pose (translation : List ℝ) (theta : ℝ) : List ℝ :=
  translation ++ quat_z_degrees theta

/-- From `src/utils/render.py` line 65: the angles
`np.linspace(0, 2*pi, num_images + 1)[:-1]`, i.e. `2*pi*k/n` for `k < n`. -/
noncomputable def render_thetas (num_images : ℕ) : List ℝ :=
  (List.range num_images).map
    (fun k : ℕ => 2 * Real.pi * (k : ℝ) / (num_images : ℝ))

/-- One iteration of the `render_images` loop: the pose it builds, the pixel
coordinates it enumerates, and the assembled image. -/
structure Frame where
  pose : List ℝ
  pixel_coords : List ℕ
  image : Option (List Color3)

/-- From `src/utils/render.py` `render_images` lines 52-91: for each angle in
`linspace(0, 2π, num_images + 1)[:-1]`, build the pose from the fixed
translation and the z-rotation quaternion, enumerate the valid pixels from the
model's stored mask, run the model forward, and scatter the per-ray colors into
a zero-background grid through the stored mask.  `maskCalls` counts
`get_valid_mask` evaluations: the function only reads `model.valid_mask`. -/
noncomputable def render_images_model (m : Model) (translation : List ℝ)
    (num_images : ℕ) : Counted (List Frame) :=
  { val := (render_thetas num_images).map (fun theta =>
      let pose := render_pose translation theta
      let px := get_pixels_from_image m.valid_mask
      { pose := pose
      , pixel_coords := px
      , image := scatterValid ((0, 0, 0) : Color3) m.valid_mask
          (model_forward m pose px) })
  , maskCalls := 0 }

/-- From `src/run.py` `train` lines 160-162: the per-iteration random pixel
sampling, which passes `valid_mask=model.valid_mask`; it performs no
`get_valid_mask` call of its own. -/
def trainSamplePixels (m : Model) (k seed : ℕ) : Counted (List ℕ) :=
  { val := get_random_pixels_from_image k seed m.valid_mask, maskCalls := 0 }

/-- C2: the validity mask is computed exactly once, at model construction, as a
function of only the camera configuration (two configurations with the same
field of view yield the same mask), and both the training-time random pixel
sampling and the rendering-time pixel enumeration and image assembly reuse the
stored mask with zero further `get_valid_mask` evaluations. -/
theorem valid_mask_computed_once_and_reused
    (cfg cfg' : Config) (cm cm' : Counted Model)
    (h : mkModel cfg = some cm) (h' : mkModel cfg' = some cm')
    (hfov : cfg.data.fov_degree = cfg'.data.fov_degree)
    (k seed n : ℕ) (t : List ℝ) :
    cm.maskCalls = 1 ∧
    cm.val.valid_mask = get_valid_mask cm.val.camera_model ∧
    cm.val.valid_mask = cm'.val.valid_mask ∧
    (trainSamplePixels cm.val k seed).maskCalls = 0 ∧
    (trainSamplePixels cm.val k seed).val =
      get_random_pixels_from_image k seed cm.val.valid_mask ∧
    (render_images_model cm.val t n).maskCalls = 0 ∧
    ∀ fr ∈ (render_images_model cm.val t n).val,
      fr.pixel_coords = get_pixels_from_image cm.val.valid_mask ∧
      fr.image = scatterValid ((0, 0, 0) : Color3) cm.val.valid_mask
        (model_forward cm.val fr.pose fr.pixel_coords) := by
  simp only [mkModel, Option.bind_eq_some, Option.map_eq_some'] at h h'
  obtain ⟨vc, hv, sc, hsc, rc, hrc, rfl⟩ := h
  obtain ⟨vc', hv', sc', hsc', rc', hrc', rfl⟩ := h'
  have hcam : camera_of cfg = camera_of cfg' := by
    unfold camera_of
    rw [hfov]
  refine ⟨rfl, rfl, ?_, rfl, rfl, rfl, ?_⟩
  · show get_valid_mask (camera_of cfg) = get_valid_mask (camera_of cfg')
    rw [hcam]
  · intro fr hfr
    simp only [render_images_model, List.mem_map] at hfr
    obtain ⟨theta, _, rfl⟩ := hfr
    exact ⟨rfl, rfl⟩

/-- A concrete configuration whose three selectors are registered. -/
def cfgA : Config :=
  { data := { fov_degree := 195 }
  , implicit_function := { type := "grid", param := 0 }
  , sampler := { type := "stratified", param := 0 }
  , renderer := { type := "volume", param := 0 } }

/-- A second concrete configuration: same field of view as `cfgA`, different
component hyperparameters and a different volume selector. -/
def cfgB : Config :=
  { data := { fov_degree := 195 }
  , implicit_function := { type := "nerf", param := 7 }
  , sampler := { type := "uniform", param := 3 }
  , renderer := { type := "volume", param := 1 } }

/-- The model that `mkModel` builds from `cfgA`. -/
def cmA : Counted Model :=
  { val := { camera_model := camera_of cfgA
           , valid_mask := get_valid_mask (camera_of cfgA)
           , implicit_fn := { kind := "grid", cfg := cfgA.implicit_function }
           , sampler := { kind := "stratified", cfg := cfgA.sampler }
           , renderer := { kind := "volume", cfg := cfgA.renderer } }
  , maskCalls := 1 }

/-- The model that `mkModel` builds from `cfgB`. -/
def cmB : Counted Model :=
  { val := { camera_model := camera_of cfgB
           , valid_mask := get_valid_mask (camera_of cfgB)
           , implicit_fn := { kind := "nerf", cfg := cfgB.implicit_function }
           , sampler := { kind := "uniform", cfg := cfgB.sampler }
           , renderer := { kind := "volume", cfg := cfgB.renderer } }
  , maskCalls := 1 }

/-- C2 witness: the mask theorem at the two concrete configurations `cfgA` and
`cfgB` (equal field of view), batch of 16 pixels, seed 5, 3 rendered images. -/
theorem valid_mask_computed_once_and_reused_witness :
    cmA.maskCalls = 1 ∧
    cmA.val.valid_mask = get_valid_mask cmA.val.camera_model ∧
    cmA.val.valid_mask = cmB.val.valid_mask ∧
    (trainSamplePixels cmA.val 16 5).maskCalls = 0 ∧
    (trainSamplePixels cmA.val 16 5).val =
      get_random_pixels_from_image 16 5 cmA.val.valid_mask ∧
    (render_images_model cmA.val [1, 2, 3] 3).maskCalls = 0 ∧
    ∀ fr ∈ (render_images_model cmA.val [1, 2, 3] 3).val,
      fr.pixel_coords = get_pixels_from_image cmA.val.valid_mask ∧
      fr.image = scatterValid ((0, 0, 0) : Color3) cmA.val.valid_mask
        (model_forward cmA.val fr.pose fr.pixel_coords) :=
  valid_mask_computed_once_and_reused cfgA cfgB cmA cmB rfl rfl rfl 16 5 3 [1, 2, 3]

/-! ## Variant selection by registry lookup (C3) -/

lemma volume_lookup_kind (name : String) (ctor : TypedCfg → ImplicitVolume)
    (h : List.lookup name volume_dict = some ctor) :
    ∀ c : TypedCfg, (ctor c).kind = name := by
  intro c
  simp only [volume_dict, List.lookup] at h
  split at h
  · cases h
    simp_all [beq_iff_eq]
  · split at h
    · cases h
      simp_all [beq_iff_eq]
    · cases h

lemma sampler_lookup_kind (name : String) (ctor : TypedCfg → Sampler)
    (h : List.lookup name sampler_dict = some ctor) :
    ∀ c : TypedCfg, (ctor c).kind = name := by
  intro c
  simp only [sampler_dict, List.lookup] at h
  split at h
  · cases h
    simp_all [beq_iff_eq]
  · split at h
    · cases h
      simp_all [beq_iff_eq]
    · cases h

lemma renderer_lookup_kind (name : String) (ctor : TypedCfg → Renderer)
    (h : List.lookup name renderer_dict = some ctor) :
    ∀ c : TypedCfg, (ctor c).kind = name := by
  intro c
  simp only [renderer_dict, List.lookup] at h
  split at h
  · cases h
    simp_all [beq_iff_eq]
  · cases h

/-- C3: which ImplicitVolume, Sampler, and Renderer variant the model
instantiates is determined solely by the name-keyed registry lookup on the
configuration's type selectors: each component is exactly the registry
constructor for its selector applied to its sub-configuration, and any two
successfully constructed models whose selectors agree instantiate the same
variant, whatever the rest of their configurations. -/
theorem variant_selection_by_registry (cfg : Config) (cm : Counted Model)
    (h : mkModel cfg = some cm) :
    (∃ ctor, List.lookup cfg.implicit_function.type volume_dict = some ctor ∧
       cm.val.implicit_fn = ctor cfg.implicit_function) ∧
    (∃ ctor, List.lookup cfg.sampler.type sampler_dict = some ctor ∧
       cm.val.sampler = ctor cfg.sampler) ∧
    (∃ ctor, List.lookup cfg.renderer.type renderer_dict = some ctor ∧
       cm.val.renderer = ctor cfg.renderer) ∧
    (∀ cfg₂ cm₂, mkModel cfg₂ = some cm₂ →
       (cfg.implicit_function.type = cfg₂.implicit_function.type →
          cm.val.implicit_fn.kind = cm₂.val.implicit_fn.kind) ∧
       (cfg.sampler.type = cfg₂.sampler.type →
          cm.val.sampler.kind = cm₂.val.sampler.kind) ∧
       (cfg.renderer.type = cfg₂.renderer.type →
          cm.val.renderer.kind = cm₂.val.renderer.kind)) := by
  simp only [mkModel, Option.bind_eq_some, Option.map_eq_some'] at h
  obtain ⟨vc, hv, sc, hsc, rc, hrc, rfl⟩ := h
  refine ⟨⟨vc, hv, rfl⟩, ⟨sc, hsc, rfl⟩, ⟨rc, hrc, rfl⟩, ?_⟩
  intro cfg₂ cm₂ h₂
  simp only [mkModel, Option.bind_eq_some, Option.map_eq_some'] at h₂
  obtain ⟨vc₂, hv₂, sc₂, hsc₂, rc₂, hrc₂, rfl⟩ := h₂
  refine ⟨?_, ?_, ?_⟩
  · intro hty
    show (vc cfg.implicit_function).kind = (vc₂ cfg₂.implicit_function).kind
    rw [volume_lookup_kind _ _ hv, volume_lookup_kind _ _ hv₂, hty]
  · intro hty
    show (sc cfg.sampler).kind = (sc₂ cfg₂.sampler).kind
    rw [sampler_lookup_kind _ _ hsc, sampler_lookup_kind _ _ hsc₂, hty]
  · intro hty
    show (rc cfg.renderer).kind = (rc₂ cfg₂.renderer).kind
    rw [renderer_lookup_kind _ _ hrc, renderer_lookup_kind _ _ hrc₂, hty]

/-- C3 witness: the registry-dispatch theorem at the concrete configuration
`cfgA` and the model `mkModel` builds from it. -/
theorem variant_selection_by_registry_witness :
    (∃ ctor, List.lookup cfgA.implicit_function.type volume_dict = some ctor ∧
       cmA.val.implicit_fn = ctor cfgA.implicit_function) ∧
    (∃ ctor, List.lookup cfgA.sampler.type sampler_dict = some ctor ∧
       cmA.val.sampler = ctor cfgA.sampler) ∧
    (∃ ctor, List.lookup cfgA.renderer.type renderer_dict = some ctor ∧
       cmA.val.renderer = ctor cfgA.renderer) ∧
    (∀ cfg₂ cm₂, mkModel cfg₂ = some cm₂ →
       (cfgA.implicit_function.type = cfg₂.implicit_function.type →
          cmA.val.implicit_fn.kind = cm₂.val.implicit_fn.kind) ∧
       (cfgA.sampler.type = cfg₂.sampler.type →
          cmA.val.sampler.kind = cm₂.val.sampler.kind) ∧
       (cfgA.renderer.type = cfg₂.renderer.type →
          cmA.val.renderer.kind = cm₂.val.renderer.kind)) :=
  variant_selection_by_registry cfgA cmA rfl

/-! ## Image assembly (C4) -/

/-- Number of valid (true) mask positions strictly before flattened index `i`;
the rank at which a valid pixel's color appears in the per-ray output. -/
def countTrueBefore (mask : List Bool) (i : ℕ) : ℕ :=
  (mask.take i).count true

lemma scatterValid_length {α : Type} (bg : α) :
    ∀ (mask : List Bool) (cs img : List α),
      scatterValid bg mask cs = some img → img.length = mask.length := by
  intro mask
  induction mask with
  | nil =>
      intro cs img h
      cases cs with
      | nil => simp [scatterValid] at h; simp [← h]
      | cons c cs => simp [scatterValid] at h
  | cons b ms ih =>
      intro cs img h
      cases b with
      | false =>
          simp only [scatterValid, Option.map_eq_some'] at h
          obtain ⟨r, hr, rfl⟩ := h
          simp [ih cs r hr]
      | true =>
          cases cs with
          | nil => simp [scatterValid] at h
          | cons c cs =>
              simp only [scatterValid, Option.map_eq_some'] at h
              obtain ⟨r, hr, rfl⟩ := h
              simp [ih cs r hr]

lemma scatterValid_spec {α : Type} (bg : α) :
    ∀ (mask : List Bool) (cs img : List α), scatterValid bg mask cs = some img →
      ∀ i, i < mask.length →
        (mask.getD i false = true →
          img.getD i bg = cs.getD (countTrueBefore mask i) bg) ∧
        (mask.getD i false = false → img.getD i bg = bg) := by
  intro mask
  induction mask with
  | nil => intro cs img h i hi; exact absurd hi (by simp)
  | cons b ms ih =>
      intro cs img h i hi
      cases b with
      | false =>
          simp only [scatterValid, Option.map_eq_some'] at h
          obtain ⟨r, hr, rfl⟩ := h
          cases i with
          | zero => simp [countTrueBefore]
          | succ j =>
              have hj : j < ms.length := by simpa using hi
              have := ih cs r hr j hj
              simpa [countTrueBefore, List.count_cons] using this
      | true =>
          cases cs with
          | nil => simp [scatterValid] at h
          | cons c cs =>
              simp only [scatterValid, Option.map_eq_some'] at h
              obtain ⟨r, hr, rfl⟩ := h
              cases i with
              | zero => simp [countTrueBefore]
              | succ j =>
                  have hj : j < ms.length := by simpa using hi
                  have := ih cs r hr j hj
                  simpa [countTrueBefore, List.count_cons] using this

/-- C4: the image assembly of `render_images` scatters the per-ray output
colors into the full flattened grid exactly at the positions where the validity
mask is true (in mask order), every pixel outside the mask keeps the zero
background, and every frame produced by `render_images` is assembled exactly
this way from the model's stored mask. -/
theorem image_assembly_scatter (mask : List Bool) (colors img : List Color3)
    (h : scatterValid ((0, 0, 0) : Color3) mask colors = some img) :
    img.length = mask.length ∧
    (∀ i, i < mask.length →
      (mask.getD i false = true →
        img.getD i ((0, 0, 0) : Color3) =
          colors.getD (countTrueBefore mask i) ((0, 0, 0) : Color3)) ∧
      (mask.getD i false = false →
        img.getD i ((0, 0, 0) : Color3) = ((0, 0, 0) : Color3))) ∧
    ∀ (m : Model) (t : List ℝ) (n : ℕ),
      ∀ fr ∈ (render_images_model m t n).val,
        fr.image = scatterValid ((0, 0, 0) : Color3) m.valid_mask
          (model_forward m fr.pose (get_pixels_from_image m.valid_mask)) := by
  refine ⟨scatterValid_length _ mask colors img h,
    scatterValid_spec _ mask colors img h, ?_⟩
  intro m t n fr hfr
  simp only [render_images_model, List.mem_map] at hfr
  obtain ⟨theta, _, rfl⟩ := hfr
  rfl

/-- C4 witness: the scatter theorem at the concrete mask
`[true, false, true]` and color list `[(1,2,3), (4,5,6)]`. -/
theorem image_assembly_scatter_witness :
    ([(1, 2, 3), (0, 0, 0), (4, 5, 6)] : List Color3).length =
      [true, false, true].length ∧
    (∀ i, i < [true, false, true].length →
      ([true, false, true].getD i false = true →
        ([(1, 2, 3), (0, 0, 0), (4, 5, 6)] : List Color3).getD i
            ((0, 0, 0) : Color3) =
          ([(1, 2, 3), (4, 5, 6)] : List Color3).getD
            (countTrueBefore [true, false, true] i) ((0, 0, 0) : Color3)) ∧
      ([true, false, true].getD i false = false →
        ([(1, 2, 3), (0, 0, 0), (4, 5, 6)] : List Color3).getD i
            ((0, 0, 0) : Color3) = ((0, 0, 0) : Color3))) ∧
    ∀ (m : Model) (t : List ℝ) (n : ℕ),
      ∀ fr ∈ (render_images_model m t n).val,
        fr.image = scatterValid ((0, 0, 0) : Color3) m.valid_mask
          (model_forward m fr.pose (get_pixels_from_image m.valid_mask)) :=
  image_assembly_scatter [true, false, true]
    [(1, 2, 3), (4, 5, 6)] [(1, 2, 3), (0, 0, 0), (4, 5, 6)]
    (by simp [scatterValid])

/-! ## Training loss (C5) -/

/-- From `torch.nn.functional.mse_loss` (external dependency): the mean squared
error over all `3 * N` color components of two equally long color lists. -/
noncomputable def mse_loss (a b : List Color3) : ℝ :=
  (List.zipWith (fun x y : Color3 =>
      (x.1 - y.1) ^ 2 + (x.2.1 - y.2.1) ^ 2 + (x.2.2 - y.2.2) ^ 2) a b).sum /
    (3 * a.length)

/-- From `src/run.py` `train` line 180: sample the ground-truth image at the
given flattened pixel coordinates (`image[:, :, y, x]`). -/
def sample_image_at (image : List Color3) (pixels : List ℕ) : List Color3 :=
  pixels.map (fun p => image.getD p ((0, 0, 0) : Color3))

/-- From `src/run.py` `train` lines 160-186: one training iteration's loss.
Random pixel coordinates are drawn once; the ray bundle (and hence the model's
rendered colors) and the ground-truth colors are both taken at those same
coordinates, and the loss is their mean squared error. -/
noncomputable def train_iteration_loss (m : Model) (image : List Color3)
    (pose : List ℝ) (k seed : ℕ) : ℝ :=
  let pixel_coords := get_random_pixels_from_image k seed m.valid_mask
  let rgb_gt := sample_image_at image pixel_coords
  let out_feature := model_forward m pose pixel_coords
  mse_loss out_feature rgb_gt

/-- C5: the training loop's loss is the mean squared error between the model's
rendered per-ray colors and the ground-truth image colors sampled at exactly
the same pixel coordinates that generated the rays. -/
theorem train_loss_is_mse_at_same_pixels (m : Model) (image : List Color3)
    (pose : List ℝ) (k seed : ℕ) :
    train_iteration_loss m image pose k seed =
      mse_loss
        (model_forward m pose (get_random_pixels_from_image k seed m.valid_mask))
        (sample_image_at image
          (get_random_pixels_from_image k seed m.valid_mask)) :=
  rfl

/-! ## Parameter immutability of rendering (C6) -/

/-- From `src/run.py` `train`: the mutable training state threaded through the
loop — the ImplicitVolume's parameters and the epoch counter. -/
structure TrainState where
  model_params : List ℝ
  epoch : ℕ

/-- Modelled from the spec: the gradient of the rendering loss with respect to
the parameters, produced by `loss.backward()` (the ambient autodiff runtime);
a representative pure stand-in. -/
noncomputable def grad_of (params : List ℝ) (batch : ℝ) : List ℝ :=
  params.map (fun p => p - batch)

/-- From `src/run.py` `train` lines 184-186 (`optimizer.step()`, external
`torch.optim.Adam`): the optimizer's parameter update, the training loop's only
write to the model parameters. -/
noncomputable def optimizer_step (params grads : List ℝ) (lr : ℝ) : List ℝ :=
  List.zipWith (fun p g => p - lr * g) params grads

/-- From `src/run.py` `train` lines 182-186: one training iteration's effect on
the parameters — `zero_grad`, `backward`, `step`. -/
noncomputable def train_iteration_params (lr : ℝ) (params : List ℝ)
    (batch : ℝ) : List ℝ :=
  optimizer_step params (grad_of params batch) lr

/-- From `src/run.py` `train` lines 216-228: the periodic render interval —
inside `torch.no_grad()`, `render_images` is called on the current model; the
training state is returned alongside the frames, making explicit that the call
writes nothing to it. -/
noncomputable def render_phase (st : TrainState) (m : Model) (t : List ℝ)
    (n : ℕ) : TrainState × List Frame :=
  (st, (render_images_model m t n).val)

/-- From `src/run.py` `train` lines 152-228: one epoch — fold the optimizer
update over the batches, bump the epoch counter, then optionally run the
render interval. -/
noncomputable def epoch_body (lr : ℝ) (st : TrainState) (batches : List ℝ)
    (do_render : Bool) (m : Model) (t : List ℝ) (n : ℕ) :
    TrainState × List Frame :=
  let p := batches.foldl (train_iteration_params lr) st.model_params
  let st' : TrainState := { model_params := p, epoch := st.epoch + 1 }
  if do_render then render_phase st' m t n else (st', [])

/-- C6: a render call never mutates the model parameters — the render phase
returns the training state unchanged, an epoch's final parameters are exactly
the fold of optimizer steps whether or not the periodic render ran, so the
optimizer step is the only write to them. -/
theorem render_does_not_mutate_params (st : TrainState) (m : Model)
    (t : List ℝ) (n : ℕ) (lr : ℝ) (batches : List ℝ) (do_render : Bool) :
    (render_phase st m t n).1 = st ∧
    (epoch_body lr st batches do_render m t n).1.model_params =
      batches.foldl (train_iteration_params lr) st.model_params ∧
    (epoch_body lr st batches true m t n).1.model_params =
      (epoch_body lr st batches false m t n).1.model_params := by
  refine ⟨rfl, ?_, ?_⟩
  · cases do_render <;> rfl
  · rfl

/-! ## Pose representation (C7) and render angle semantics (C9) -/

/-- From `src/run.py` `train` line 227: the translation handed to
`render_images` is `random_pose[0:3]`, the first three values of a stored
7-value pose. -/
def train_render_translation (pose : List ℝ) : List ℝ :=
  pose.take 3

/-- From `src/utils/render.py`: the sequence of poses built by the
`render_images` loop for a fixed translation. -/
noncomputable def render_poses (translation : List ℝ) (num_images : ℕ) :
    List (List ℝ) :=
  (render_thetas num_images).map (render_pose translation)

/-- C7: every pose the pipeline builds is a 7-value vector — a 3-value
translation followed by a 4-value quaternion — and the translation the training
loop passes to `render_images` is `pose[0:3]`. -/
theorem pose_is_translation_then_quaternion (t : List ℝ) (theta : ℝ)
    (p : List ℝ) (ht : t.length = 3) :
    (render_pose t theta).length = 7 ∧
    (render_pose t theta).take 3 = t ∧
    (render_pose t theta).drop 3 = quat_z_degrees theta ∧
    (quat_z_degrees theta).length = 4 ∧
    train_render_translation p = p.take 3 := by
  refine ⟨?_, ?_, ?_, rfl, rfl⟩
  · simp [render_pose, quat_z_degrees, ht]
  · rw [render_pose, ← ht, List.take_left]
  · rw [render_pose, ← ht, List.drop_left]

/-- C7 witness: the pose-layout theorem at the concrete translation `[5, 6, 7]`,
angle `0`, and stored pose `[5, 6, 7, 0, 0, 0, 1]`. -/
theorem pose_is_translation_then_quaternion_witness :
    (render_pose [5, 6, 7] 0).length = 7 ∧
    (render_pose [5, 6, 7] 0).take 3 = [5, 6, 7] ∧
    (render_pose [5, 6, 7] 0).drop 3 = quat_z_degrees 0 ∧
    (quat_z_degrees 0).length = 4 ∧
    train_render_translation [5, 6, 7, 0, 0, 0, 1] =
      ([5, 6, 7, 0, 0, 0, 1] : List ℝ).take 3 :=
  pose_is_translation_then_quaternion [5, 6, 7] 0 [5, 6, 7, 0, 0, 0, 1]
    (by simp)

lemma render_poses_getD (t : List ℝ) (n k : ℕ) (hk : k < n) :
    (render_poses t n).getD k [] =
      t ++ quat_z_degrees (2 * Real.pi * k / n) := by
  rw [render_poses, render_thetas, List.map_map, List.getD_eq_getElem?_getD,
    List.getElem?_map, List.getElem?_range hk]
  rfl

/-- C9: `render_images` with `num_images = n ≥ 1` produces exactly `n` images,
all `n` poses share the given translation, the `k`-th pose's orientation is the
z-axis rotation by the numeric angle `2πk/n` interpreted in degrees, and every
such orientation's angle in radians stays below `2π` — the sweep is `2π`
degrees, not a full revolution. -/
theorem render_images_degree_sweep (m : Model) (t : List ℝ) (n : ℕ)
    (ht : t.length = 3) (hn : 1 ≤ n) :
    ((render_images_model m t n).val).length = n ∧
    (render_poses t n).length = n ∧
    ((render_images_model m t n).val).map Frame.pose = render_poses t n ∧
    (∀ k, k < n → (render_poses t n).getD k [] =
      t ++ quat_z_degrees (2 * Real.pi * k / n)) ∧
    (∀ p ∈ render_poses t n, p.take 3 = t) ∧
    (∀ theta ∈ render_thetas n, deg_to_rad theta < 2 * Real.pi) := by
  refine ⟨?_, ?_, ?_, ?_, ?_, ?_⟩
  · rw [render_images_model]
    rw [List.length_map, render_thetas, List.length_map, List.length_range]
  · rw [render_poses, List.length_map, render_thetas, List.length_map,
      List.length_range]
  · rw [render_images_model, render_poses, List.map_map]
    rfl
  · intro k hk
    exact render_poses_getD t n k hk
  · intro p hp
    simp only [render_poses, List.mem_map] at hp
    obtain ⟨theta, _, rfl⟩ := hp
    rw [render_pose, ← ht, List.take_left]
  · intro theta htheta
    simp only [render_thetas, List.mem_map, List.mem_range] at htheta
    obtain ⟨k, hk, rfl⟩ := htheta
    have hnpos : (0 : ℝ) < n := by
      have h0 : (0 : ℕ) < n := hn
      exact_mod_cast h0
    have hkn : (k : ℝ) / n < 1 := (div_lt_one hnpos).mpr (by exact_mod_cast hk)
    have hteq : 2 * Real.pi * k / n = 2 * Real.pi * ((k : ℝ) / n) := by ring
    have htlt : 2 * Real.pi * k / n < 2 * Real.pi := by
      rw [hteq]
      calc 2 * Real.pi * ((k : ℝ) / n) < 2 * Real.pi * 1 :=
            mul_lt_mul_of_pos_left hkn (by positivity)
        _ = 2 * Real.pi := mul_one _
    have ht0 : 0 ≤ 2 * Real.pi * k / n := by
      apply div_nonneg
      · positivity
      · exact le_of_lt hnpos
    unfold deg_to_rad
    nlinarith [Real.pi_pos, Real.pi_lt_d2, htlt, ht0,
      mul_lt_mul_of_pos_right htlt Real.pi_pos,
      mul_lt_mul_of_pos_right Real.pi_lt_d2 Real.pi_pos]

/-- C9 witness: the degree-sweep theorem at the concrete translation
`[5, 6, 7]`, 2 images, and the model built from `cfgA`. -/
theorem render_images_degree_sweep_witness :
    ((render_images_model cmA.val [5, 6, 7] 2).val).length = 2 ∧
    (render_poses [5, 6, 7] 2).length = 2 ∧
    ((render_images_model cmA.val [5, 6, 7] 2).val).map Frame.pose =
      render_poses [5, 6, 7] 2 ∧
    (∀ k, k < 2 → (render_poses [5, 6, 7] 2).getD k [] =
      [5, 6, 7] ++ quat_z_degrees (2 * Real.pi * k / 2)) ∧
    (∀ p ∈ render_poses [5, 6, 7] 2, p.take 3 = [5, 6, 7]) ∧
    (∀ theta ∈ render_thetas 2, deg_to_rad theta < 2 * Real.pi) :=
  render_images_degree_sweep cmA.val [5, 6, 7] 2 (by simp) (by omega)

/-! ## Surround cameras (C10) -/

/-- From `pytorch3d.renderer.look_at_view_transform` (external dependency): the
arguments of the look-at transform, recorded as given — eye position, the point
looked at, and the up vector. -/
structure LookAtArgs where
  eye : ℝ × ℝ × ℝ
  target : ℝ × ℝ × ℝ
  up : ℝ × ℝ × ℝ

/-- From `pytorch3d.renderer.PerspectiveCameras` (external dependency): one
camera built by `create_surround_cameras` — its look-at orientation arguments
and intrinsics. -/
structure SurroundCamera where
  look_at : LookAtArgs
  focal_length : ℝ
  principal_point : ℝ × ℝ

/-- From `src/utils/render.py` lines 22-33: the eye position for angle `theta` —
on the `y = 0` circle of the given radius when `|up[1]| > 0`, otherwise on a
`z = 2` circle. -/
noncomputable def surround_eye (radius : ℝ) (up : ℝ × ℝ × ℝ) (theta : ℝ) :
    ℝ × ℝ × ℝ :=
  if |up.2.1| > 0 then
    (Real.cos (theta + Real.pi / 2) * radius, 0,
      -(Real.sin (theta + Real.pi / 2)) * radius)
  else
    (Real.cos (theta + Real.pi / 2) * radius,
      Real.sin (theta + Real.pi / 2) * radius, 2)

/-- From `src/utils/render.py` lines 15-50: for each angle in
`linspace(0, 2π, n_poses + 1)[:-1]`, build a camera whose rotation and
translation come from `look_at_view_transform` aimed at the origin. -/
noncomputable def create_surround_cameras (radius : ℝ) (n_poses : ℕ)
    (up : ℝ × ℝ × ℝ) (focal_length : ℝ) : List SurroundCamera :=
  (render_thetas n_poses).map (fun theta =>
    { look_at := { eye := surround_eye radius up theta
                 , target := (0, 0, 0)
                 , up := up }
    , focal_length := focal_length
    , principal_point := (0, 0) })

/-- Euclidean norm of a 3-vector, i.e. the distance of `surround_eye` from the
origin. -/
noncomputable def norm3 (v : ℝ × ℝ × ℝ) : ℝ :=
  Real.sqrt (v.1 ^ 2 + v.2.1 ^ 2 + v.2.2 ^ 2)

/-- Non-negativity of the eye distance. -/
lemma norm3_nonneg (v : ℝ × ℝ × ℝ) : 0 ≤ norm3 v :=
  Real.sqrt_nonneg _

/-- C10 counterexample: at `radius = -1`, `n_poses = 1`, `up = (0, 1, 0)`, it is
false that every camera's eye lies at distance exactly `radius` from the origin
(an eye distance is a non-negative number), so the claim fails as stated for
arbitrary radii. -/
theorem surround_radius_counterexample :
    ¬ (∀ c ∈ create_surround_cameras (-1) 1 (0, 1, 0) 1,
        norm3 c.look_at.eye = (-1 : ℝ)) := by
  intro hall
  have htheta : (2 * Real.pi * ((0 : ℕ) : ℝ) / ((1 : ℕ) : ℝ)) ∈ render_thetas 1 := by
    rw [render_thetas]
    exact List.mem_map_of_mem _ (by simp)
  have hmem := List.mem_map_of_mem
    (fun theta => ({ look_at := { eye := surround_eye (-1) (0, 1, 0) theta
                                , target := (0, 0, 0)
                                , up := (0, 1, 0) }
                   , focal_length := 1
                   , principal_point := (0, 0) } : SurroundCamera)) htheta
  exact absurd (hall _ hmem)
    (ne_of_gt (lt_of_lt_of_le (show (-1 : ℝ) < 0 by norm_num) (norm3_nonneg _)))

/-- C10 (amended): for every radius `≥ 0` and every `n_poses = n ≥ 1`,
`create_surround_cameras` returns exactly `n` cameras; when `up[1]` is nonzero
each camera's eye lies at distance exactly `radius` from the origin with second
coordinate `0`, and every camera is oriented by a look-at transform toward the
origin. -/
theorem create_surround_cameras_spec (radius : ℝ) (n : ℕ) (up : ℝ × ℝ × ℝ)
    (fl : ℝ) (hr : 0 ≤ radius) (hn : 1 ≤ n) (hup : up.2.1 ≠ 0) :
    (create_surround_cameras radius n up fl).length = n ∧
    ∀ c ∈ create_surround_cameras radius n up fl,
      norm3 c.look_at.eye = radius ∧
      c.look_at.eye.2.1 = 0 ∧
      c.look_at.target = (0, 0, 0) ∧
      c.look_at.up = up := by
  constructor
  · rw [create_surround_cameras, List.length_map, render_thetas,
      List.length_map, List.length_range]
  · intro c hc
    simp only [create_surround_cameras, List.mem_map] at hc
    obtain ⟨theta, _, rfl⟩ := hc
    have hcond : |up.2.1| > 0 := abs_pos.mpr hup
    have heye : surround_eye radius up theta =
        (Real.cos (theta + Real.pi / 2) * radius, 0,
          -(Real.sin (theta + Real.pi / 2)) * radius) := by
      rw [surround_eye, if_pos hcond]
    refine ⟨?_, ?_, rfl, rfl⟩
    · show norm3 (surround_eye radius up theta) = radius
      rw [heye, norm3]
      have hsum : (Real.cos (theta + Real.pi / 2) * radius) ^ 2 + (0 : ℝ) ^ 2 +
          (-(Real.sin (theta + Real.pi / 2)) * radius) ^ 2 = radius ^ 2 := by
        have h1 := Real.sin_sq_add_cos_sq (theta + Real.pi / 2)
        nlinarith [h1]
      rw [hsum, Real.sqrt_sq_eq_abs, abs_of_nonneg hr]
    · show (surround_eye radius up theta).2.1 = 0
      rw [heye]

/-- C10 witness: the amended surround-camera theorem at radius 3, one pose,
up vector `(0, 1, 0)`, focal length 1 (the repository's own call uses
radius 3.0). -/
theorem create_surround_cameras_spec_witness :
    (create_surround_cameras 3 1 (0, 1, 0) 1).length = 1 ∧
    ∀ c ∈ create_surround_cameras 3 1 (0, 1, 0) 1,
      norm3 c.look_at.eye = 3 ∧
      c.look_at.eye.2.1 = 0 ∧
      c.look_at.target = (0, 0, 0) ∧
      c.look_at.up = (0, 1, 0) :=
  create_surround_cameras_spec 3 1 (0, 1, 0) 1 (by norm_num) (by omega)
    (by norm_num)

/-! ## Module import behavior of `src/run.py` (C8) -/

/-- From `src/utils/render.py`: the module's top-level names (its imports and
its two function definitions) — the attributes a `from utils.render import ...`
statement can resolve. -/
def render_module_top_level : List String :=
  ["sys", "Rotation", "plt", "np", "torch", "PerspectiveCameras",
   "look_at_view_transform", "get_pixels_from_image", "get_rays_from_pixels",
   "create_surround_cameras", "render_images"]

/-- From `src/run.py` line 23: the names requested by
`from utils.render import create_surround_cameras, render_images,
render_images_in_poses`. -/
def run_requested_from_utils_render : List String :=
  ["create_surround_cameras", "render_images", "render_images_in_poses"]

/-- Python's `from module import name, ...` semantics: the first requested name
the module does not define aborts the load of the importing module with an
`ImportError`. -/
def from_import_check (exports requested : List String) : Except String Unit :=
  match requested.find? (fun nm => !(exports.contains nm)) with
  | some missing => Except.error ("cannot import name " ++ missing)
  | none => Except.ok ()

/-- From `src/run.py` lines 1-23: loading the module executes its top-level
imports, among them the `utils.render` one at line 23. -/
def load_run_module : Except String Unit :=
  from_import_check render_module_top_level run_requested_from_utils_render

/-- From `src/run.py` `main`: running either entry point (`train` or `render`)
first requires the module to load. -/
def run_entry_point (entry : String) : Except String Unit :=
  match load_run_module with
  | Except.error e => Except.error e
  | Except.ok _ => Except.ok ()

/-- C8: loading `src/run.py` always fails with an import error — it requests
`render_images_in_poses` from `utils.render`, which defines no such name — so
neither the `train` nor the `render` entry point can execute. -/
theorem run_module_import_error :
    load_run_module =
      Except.error "cannot import name render_images_in_poses" ∧
    "render_images_in_poses" ∈ run_requested_from_utils_render ∧
    "render_images_in_poses" ∉ render_module_top_level ∧
    ∀ entry : String, run_entry_point entry =
      Except.error "cannot import name render_images_in_poses" := by
  refine ⟨rfl, by decide, by decide, ?_⟩
  intro entry
  rfl
